import Mathlib

/-!
Verification of the FastAPI blog backend (users/posts CRUD with token login).

The embedding models, from the source:
  * `models.py`   — the `User` and `Post` tables and their constraints;
  * `routers/users.py` and `routers/posts.py` — the route handlers, as
    functions from a request and a store state to a response and a new state;
  * `config.py`   — the settings record;
  * `auth.py`     — absent from the repository snapshot (only imported by the
    routers), so the token/password functions are modelled from the spec.

Machine times are `Nat` (seconds since an arbitrary epoch, UTC).  A store
(`DB`) is the list of user rows and post rows together with the autoincrement
counters for the two primary keys.  Each handler returns an `HResp` (success
status with a value, or an HTTP error status with a detail string) paired with
the store after the request; a raised `HTTPException` corresponds to an
`HResp.error` returned with the store unmodified, exactly as in the source,
where every `raise` happens before any mutation of the session.
-/

/-- Model of Python `str.lower()` / SQL `func.lower` as used by the routers:
lowercase every character (`Char.toLower` handles the basic latin range, the
one exercised by usernames and emails here). -/
def strLower (s : String) : String :=
  String.mk (s.data.map Char.toLower)

/-- Settings record from `config.py`: symmetric secret, fixed HMAC algorithm
name, token lifetime in minutes (default 30). -/
structure Settings where
  secret_key : String
  algorithm : String := "HS256"
  access_token_expire_minutes : Nat := 30
deriving Repr, DecidableEq

/-- The decoded payload of an access token: the `sub` claim (subject) and the
`exp` claim (absolute expiry instant). -/
structure TokenPayload where
  sub : String
  exp : Nat
deriving Repr, DecidableEq

/-- A structurally well-formed signed token: payload plus signature value. -/
structure SignedToken where
  payload : TokenPayload
  sig : Nat
deriving Repr, DecidableEq

/-- A token string as presented by a client: either it decodes to a
`SignedToken`, or it is structurally malformed. -/
inductive PresentedToken where
  | wellFormed (t : SignedToken)
  | malformed (raw : String)
deriving Repr, DecidableEq

/-- Modelled from the spec: the "fixed, configured HMAC-based scheme" of the
Token Service (`auth.py` is not in the snapshot).  The tag is a concrete
deterministic function of the symmetric secret and the payload; its only
property used below is that verification recomputes it and compares. -/
def hmacTag (secret : String) (sub : String) (exp : Nat) : Nat :=
  (secret ++ "." ++ sub).data.foldl (fun h c => h * 31 + c.toNat + 1) (exp + 1)

/-- Modelled from the spec: `issue(subject, ttl)` of the Token Service
(`create_access_token` in the missing `auth.py`): a signed token encoding the
subject and an absolute expiry = now + ttl, signed with the symmetric
secret. -/
def create_access_token (secret : String) (now : Nat) (sub : String)
    (expires_delta : Nat) : SignedToken :=
  let exp := now + expires_delta
  { payload := { sub := sub, exp := exp }, sig := hmacTag secret sub exp }

/-- Modelled from the spec: `verify(token)` of the Token Service
(`verify_access_token` in the missing `auth.py`): checks signature validity
and that expiry has not passed; on success returns the embedded subject; on
any failure (bad signature, malformed structure, expired) returns the single
failure value `none`. -/
def verify_access_token (secret : String) (now : Nat) :
    PresentedToken → Option String
  | .malformed _ => none
  | .wellFormed tk =>
    if tk.sig = hmacTag secret tk.payload.sub tk.payload.exp then
      if now < tk.payload.exp then some tk.payload.sub else none
    else none

/-- Modelled from the spec: password hashing of the missing `auth.py`
("salted hash comparison"); the salt is elided so the model is a deterministic
injective tagging of the password. -/
def hash_password (password : String) : String :=
  "pbkdf2-sha256$" ++ password

/-- Modelled from the spec: password verification of the missing `auth.py` —
a plain password verifies against exactly the stored hash of itself. -/
def verify_password (plain : String) (hashed : String) : Bool :=
  hashed == hash_password plain

/-- A `users` table row as the routers use it: `models.py` columns
(id primary key, username, email, optional image_file) plus the
`password_hash` attribute that `routers/users.py` writes and reads. -/
structure User where
  id : Nat
  username : String
  email : String
  password_hash : String
  image_file : Option String
deriving Repr, DecidableEq

/-- The mapped columns actually declared on `models.User` in `models.py`
(`posts` is a relationship, `image_path` a property, not columns). -/
def modelsUserColumns : List String :=
  ["id", "username", "email", "image_file"]

/-- A `posts` table row from `models.py`: id primary key, title, content,
owning user id (foreign key), creation timestamp. -/
structure Post where
  id : Nat
  title : String
  content : String
  user_id : Nat
  date_posted : Nat
deriving Repr, DecidableEq

/-- The store: both tables plus the autoincrement state of the two integer
primary keys. -/
structure DB where
  users : List User
  posts : List Post
  nextUserId : Nat
  nextPostId : Nat
deriving Repr, DecidableEq

/-- The store of a freshly created database. -/
def emptyDB : DB := { users := [], posts := [], nextUserId := 1, nextPostId := 1 }

/-- Request body of `POST /users` (`schemas.UserCreate`). -/
structure UserCreate where
  username : String
  email : String
  password : String
deriving Repr, DecidableEq

/-- Request body of `PATCH /users/{user_id}` (`schemas.UserUpdate`);
`none` is an omitted field. -/
structure UserUpdate where
  username : Option String
  email : Option String
  image_file : Option String
deriving Repr, DecidableEq

/-- Request body of `POST /posts` and `PUT /posts/{post_id}`
(`schemas.PostCreate`). -/
structure PostCreate where
  title : String
  content : String
  user_id : Nat
deriving Repr, DecidableEq

/-- Request body of `PATCH /posts/{post_id}` (`schemas.PostUpdate`);
`none` is an unset field, excluded by `model_dump(exclude_unset=True)`. -/
structure PostUpdate where
  title : Option String
  content : Option String
deriving Repr, DecidableEq

/-- Response body of `POST /users/token` (`schemas.Token`). -/
structure Token where
  access_token : SignedToken
  token_type : String
deriving Repr, DecidableEq

/-- A handler outcome: success with an HTTP status and a value, or a raised
`HTTPException` with its status and detail. -/
inductive HResp (α : Type) where
  | ok (status : Nat) (val : α)
  | error (status : Nat) (detail : String)
deriving Repr, DecidableEq

/-- Whether the outcome is a raised `HTTPException`. -/
def HResp.isError {α : Type} : HResp α → Bool
  | .ok _ _ => false
  | .error _ _ => true

/-- Forget the success payload (used to put all handlers under one type). -/
def HResp.toUnit {α : Type} : HResp α → HResp Unit
  | .ok s _ => .ok s ()
  | .error s d => .error s d

/-- `select(User).where(func.lower(User.username) == uname.lower())`,
first result. -/
def findUserByUsernameCI (db : DB) (uname : String) : Option User :=
  db.users.find? (fun u => strLower u.username == strLower uname)

/-- `select(User).where(func.lower(User.email) == email.lower())`,
first result. -/
def findUserByEmailCI (db : DB) (email : String) : Option User :=
  db.users.find? (fun u => strLower u.email == strLower email)

/-- `select(User).where(User.id == uid)`, first result. -/
def findUserById (db : DB) (uid : Nat) : Option User :=
  db.users.find? (fun u => u.id == uid)

/-- `select(Post).where(Post.id == pid)`, first result. -/
def findPostById (db : DB) (pid : Nat) : Option Post :=
  db.posts.find? (fun p => p.id == pid)

/-- `POST /users` (`create_user` in `routers/users.py`): reject a
case-insensitive duplicate username (400), then a case-insensitive duplicate
email (400), else insert a new row with the submitted username, the
lowercased email and the password hash; respond 201. -/
def create_user (req : UserCreate) (db : DB) : HResp User × DB :=
  match findUserByUsernameCI db req.username with
  | some _ => (.error 400 "Username already exists", db)
  | none =>
    match findUserByEmailCI db req.email with
    | some _ => (.error 400 "Email already exists", db)
    | none =>
      let new_user : User :=
        { id := db.nextUserId
          username := req.username
          email := strLower req.email
          password_hash := hash_password req.password
          image_file := none }
      (.ok 201 new_user,
        { db with users := db.users ++ [new_user], nextUserId := db.nextUserId + 1 })

/-- `POST /users/token` (`login_for_access_token` in `routers/users.py`):
look the user up by email case-insensitively (the form's `username` field is
treated as the email); if absent or the password does not verify, raise 401
with one message for both; else issue a bearer token whose subject is the
user's id, with the configured lifetime. -/
def login_for_access_token (s : Settings) (now : Nat)
    (form_username form_password : String) (db : DB) : HResp Token × DB :=
  match findUserByEmailCI db form_username with
  | none => (.error 401 "Incorrect email or password", db)
  | some user =>
    if verify_password form_password user.password_hash then
      let tk := create_access_token s.secret_key now (toString user.id)
        (s.access_token_expire_minutes * 60)
      (.ok 200 { access_token := tk, token_type := "bearer" }, db)
    else
      (.error 401 "Incorrect email or password", db)

/-- `GET /users/me` (`get_current_user` in `routers/users.py`): verify the
bearer token; on the single failure value raise 401; parse the subject as an
integer id (`int(user_id)`, modelled by `String.toNat?` since issued subjects
are decimal ids), raising the same 401 when it fails; look the user up by id,
401 if absent, else return the row. -/
def get_current_user (s : Settings) (now : Nat) (token : PresentedToken)
    (db : DB) : HResp User × DB :=
  match verify_access_token s.secret_key now token with
  | none => (.error 401 "Invalid or expired token", db)
  | some user_id =>
    match user_id.toNat? with
    | none => (.error 401 "Invalid or expired token", db)
    | some user_id_int =>
      match findUserById db user_id_int with
      | none => (.error 401 "User not found", db)
      | some user => (.ok 200 user, db)

/-- `PATCH /users/{user_id}` (`update_user` in `routers/users.py`): 404 if
the id is absent; 400 if a submitted username changes the lowercase form and
collides case-insensitively with an existing row; likewise for the email
(400, "Email already registered"); else assign the submitted fields — the
username verbatim, the email lowercased — and respond 200. -/
def update_user (uid : Nat) (req : UserUpdate) (db : DB) : HResp User × DB :=
  match findUserById db uid with
  | none => (.error 404 "User not found", db)
  | some user =>
    let usernameClash : Bool :=
      match req.username with
      | some nm =>
        if strLower nm != strLower user.username then
          (findUserByUsernameCI db nm).isSome
        else false
      | none => false
    if usernameClash then (.error 400 "Username already exists", db)
    else
      let emailClash : Bool :=
        match req.email with
        | some em =>
          if strLower em != strLower user.email then
            (findUserByEmailCI db em).isSome
          else false
        | none => false
      if emailClash then (.error 400 "Email already registered", db)
      else
        let user' : User :=
          { user with
            username := (req.username).getD user.username
            email := ((req.email).map strLower).getD user.email
            image_file :=
              match req.image_file with
              | some f => some f
              | none => user.image_file }
        (.ok 200 user',
          { db with users := db.users.map (fun u => if u.id == uid then user' else u) })

/-- `DELETE /users/{user_id}` (`delete_user` in `routers/users.py`): 404 if
the id is absent; else delete the row — the `cascade='all, delete-orphan'`
relationship of `models.User.posts` also deletes every post whose `user_id`
is the deleted id — and respond 204. -/
def delete_user (uid : Nat) (db : DB) : HResp Unit × DB :=
  match findUserById db uid with
  | none => (.error 404 "User not found", db)
  | some _ =>
    (.ok 204 (),
      { db with
        users := db.users.filter (fun u => u.id != uid)
        posts := db.posts.filter (fun p => p.user_id != uid) })

/-- `POST /posts` (`create_post` in `routers/posts.py`): 404 if the owning
user id is absent; else insert a row whose `date_posted` defaults to the
current UTC time (`models.py`: `default=lambda: datetime.now(UTC)`);
respond 201. -/
def create_post (req : PostCreate) (now : Nat) (db : DB) : HResp Post × DB :=
  match findUserById db req.user_id with
  | none => (.error 404 "User not found", db)
  | some _ =>
    let new_post : Post :=
      { id := db.nextPostId
        title := req.title
        content := req.content
        user_id := req.user_id
        date_posted := now }
    (.ok 201 new_post,
      { db with posts := db.posts ++ [new_post], nextPostId := db.nextPostId + 1 })

/-- `PUT /posts/{post_id}` (`update_post_full` in `routers/posts.py`): 404 if
the post is absent; if the submitted `user_id` differs from the stored one
and no such user exists, 404; else assign title, content and user_id
(never `date_posted`) and respond 200. -/
def update_post_full (pid : Nat) (req : PostCreate) (db : DB) : HResp Post × DB :=
  match findPostById db pid with
  | none => (.error 404 "Post not found", db)
  | some post =>
    if req.user_id != post.user_id && (findUserById db req.user_id).isNone then
      (.error 404 "User not found", db)
    else
      let post' : Post :=
        { post with title := req.title, content := req.content, user_id := req.user_id }
      (.ok 200 post',
        { db with posts := db.posts.map (fun p => if p.id == pid then post' else p) })

/-- `PATCH /posts/{post_id}` (the partial update handler in
`routers/posts.py`): 404 if the post is absent; else assign exactly the set
fields of the body (`model_dump(exclude_unset=True)` yields only `title` and
`content`, so `date_posted` and `user_id` are never assigned); respond 200. -/
def update_post_partial (pid : Nat) (req : PostUpdate) (db : DB) : HResp Post × DB :=
  match findPostById db pid with
  | none => (.error 404 "Post not found", db)
  | some post =>
    let post' : Post :=
      { post with
        title := (req.title).getD post.title
        content := (req.content).getD post.content }
    (.ok 200 post',
      { db with posts := db.posts.map (fun p => if p.id == pid then post' else p) })

/-- `DELETE /posts/{post_id}` (`delete_post` in `routers/posts.py`): 404 if
the post is absent; else delete the row and respond 204. -/
def delete_post (pid : Nat) (db : DB) : HResp Unit × DB :=
  match findPostById db pid with
  | none => (.error 404 "Post not found", db)
  | some _ =>
    (.ok 204 (), { db with posts := db.posts.filter (fun p => p.id != pid) })

/-- `GET /users/{user_id}` (`get_user` in `routers/users.py`). -/
def get_user (uid : Nat) (db : DB) : HResp User × DB :=
  match findUserById db uid with
  | some user => (.ok 200 user, db)
  | none => (.error 404 "User not found", db)

/-- `GET /posts/{post_id}` (`get_post` in `routers/posts.py`). -/
def get_post (pid : Nat) (db : DB) : HResp Post × DB :=
  match findPostById db pid with
  | some post => (.ok 200 post, db)
  | none => (.error 404 "Post not found", db)

/-- One API request: each constructor carries the handler's inputs; the
operations that read the clock also carry the request instant. -/
inductive Op where
  | createUserOp (req : UserCreate)
  | loginOp (form_username form_password : String) (now : Nat)
  | meOp (token : PresentedToken) (now : Nat)
  | getUserOp (uid : Nat)
  | updateUserOp (uid : Nat) (req : UserUpdate)
  | deleteUserOp (uid : Nat)
  | createPostOp (req : PostCreate) (now : Nat)
  | getPostOp (pid : Nat)
  | putPostOp (pid : Nat) (req : PostCreate)
  | patchPostOp (pid : Nat) (req : PostUpdate)
  | deletePostOp (pid : Nat)
deriving Repr, DecidableEq

/-- Dispatch one request to its handler, forgetting the success payload. -/
def applyOp (s : Settings) : Op → DB → HResp Unit × DB
  | .createUserOp req, db =>
    let r := create_user req db; (r.1.toUnit, r.2)
  | .loginOp nm pw now, db =>
    let r := login_for_access_token s now nm pw db; (r.1.toUnit, r.2)
  | .meOp tok now, db =>
    let r := get_current_user s now tok db; (r.1.toUnit, r.2)
  | .getUserOp uid, db =>
    let r := get_user uid db; (r.1.toUnit, r.2)
  | .updateUserOp uid req, db =>
    let r := update_user uid req db; (r.1.toUnit, r.2)
  | .deleteUserOp uid, db =>
    let r := delete_user uid db; (r.1.toUnit, r.2)
  | .createPostOp req now, db =>
    let r := create_post req now db; (r.1.toUnit, r.2)
  | .getPostOp pid, db =>
    let r := get_post pid db; (r.1.toUnit, r.2)
  | .putPostOp pid req, db =>
    let r := update_post_full pid req db; (r.1.toUnit, r.2)
  | .patchPostOp pid req, db =>
    let r := update_post_partial pid req db; (r.1.toUnit, r.2)
  | .deletePostOp pid, db =>
    let r := delete_post pid db; (r.1.toUnit, r.2)

/-- The store states reachable through the API from a fresh database. -/
inductive Reachable (s : Settings) : DB → Prop where
  | empty : Reachable s emptyDB
  | step {db : DB} (op : Op) : Reachable s db → Reachable s (applyOp s op db).2

/-- All stamps (id, date_posted) of the stored posts. -/
def postStamps (db : DB) : List (Nat × Nat) :=
  db.posts.map (fun p => (p.id, p.date_posted))

/-- A concrete settings value used by the concrete instantiations below. -/
def s0 : Settings := { secret_key := "k" }

/-- A user row accepted by the exact-match table constraints. -/
def clashUserA : User :=
  { id := 1, username := "Alice", email := "alice@example.com",
    password_hash := "h1", image_file := none }

/-- A second row whose username and email equal `clashUserA`'s up to case
but not exactly, so the exact-match constraints also accept it. -/
def clashUserB : User :=
  { id := 2, username := "alice", email := "ALICE@example.com",
    password_hash := "h2", image_file := none }

/-- A store holding both rows: the table constraints hold, case-insensitive
uniqueness does not. -/
def clashDB : DB :=
  { users := [clashUserA, clashUserB], posts := [], nextUserId := 3, nextPostId := 1 }

/-- A store with one user, for concrete duplicate-rejection runs. -/
def dupDB : DB :=
  { users := [{ id := 1, username := "Alice", email := "alice@example.com",
                password_hash := "h1", image_file := none }],
    posts := [], nextUserId := 2, nextPostId := 1 }

/-- A store with two users and three posts (two owned by user 1), for a
concrete cascade-delete run. -/
def cascadeDB : DB :=
  { users := [{ id := 1, username := "alice", email := "alice@x.com",
                password_hash := "h1", image_file := none },
              { id := 2, username := "bob", email := "bob@x.com",
                password_hash := "h2", image_file := none }],
    posts := [{ id := 1, title := "t1", content := "c1", user_id := 1, date_posted := 10 },
              { id := 2, title := "t2", content := "c2", user_id := 2, date_posted := 20 },
              { id := 3, title := "t3", content := "c3", user_id := 1, date_posted := 30 }],
    nextUserId := 3, nextPostId := 4 }

/-- The post created by `create_post ⟨"t", "c", 1⟩ 42 dupDB`. -/
def cpPost : Post :=
  { id := 1, title := "t", content := "c", user_id := 1, date_posted := 42 }

/-- The store after that creation. -/
def db1 : DB := (create_post ⟨"t", "c", 1⟩ 42 dupDB).2

/-- That post after a PATCH changing its title: same `date_posted`. -/
def patchedPost : Post :=
  { id := 1, title := "x", content := "c", user_id := 1, date_posted := 42 }

/-- The user created by `create_user ⟨"Bob", "BOB@X.com", "password1"⟩`:
username verbatim, email lowercased. -/
def newBob : User :=
  { id := 1, username := "Bob", email := "bob@x.com",
    password_hash := hash_password "password1", image_file := none }

/-- The store after that creation. -/
def db2 : DB := (create_user ⟨"Bob", "BOB@X.com", "password1"⟩ emptyDB).2

/-- That user after a PATCH submitting email NEW@X.com: stored lowercased. -/
def updBob : User := { newBob with email := "new@x.com" }


/-! ### Basic lemmas about the lowercase model and the lookups -/

theorem char_toNat_ofNat_valid {n : Nat} (h : n.isValidChar) :
    (Char.ofNat n).toNat = n := by
  rw [Char.ofNat, dif_pos h]
  rfl

theorem char_toLower_idem (c : Char) : c.toLower.toLower = c.toLower := by
  unfold Char.toLower
  by_cases h : c.toNat ≥ 65 ∧ c.toNat ≤ 90
  · rw [if_pos h]
    have hval : (c.toNat + 32).isValidChar := by
      left; omega
    rw [char_toNat_ofNat_valid hval]
    rw [if_neg (by omega)]
  · rw [if_neg h, if_neg h]

theorem strLower_idem (s : String) : strLower (strLower s) = strLower s := by
  unfold strLower
  dsimp only
  rw [List.map_map]
  exact congrArg String.mk (List.map_congr_left (fun c _ => char_toLower_idem c))

theorem findUserByUsernameCI_none {db : DB} {uname : String}
    (h : findUserByUsernameCI db uname = none) :
    ∀ u ∈ db.users, strLower u.username ≠ strLower uname := by
  intro u hu
  have := List.find?_eq_none.mp h u hu
  simpa using this

theorem findUserByEmailCI_none {db : DB} {email : String}
    (h : findUserByEmailCI db email = none) :
    ∀ u ∈ db.users, strLower u.email ≠ strLower email := by
  intro u hu
  have := List.find?_eq_none.mp h u hu
  simpa using this

theorem findUserById_none {db : DB} {uid : Nat}
    (h : findUserById db uid = none) :
    ∀ u ∈ db.users, u.id ≠ uid := by
  intro u hu
  have := List.find?_eq_none.mp h u hu
  simpa using this

theorem findUserById_some {db : DB} {uid : Nat} {u : User}
    (h : findUserById db uid = some u) : u ∈ db.users ∧ u.id = uid := by
  refine ⟨List.mem_of_find?_eq_some h, ?_⟩
  have := List.find?_some h
  simpa using this

theorem findPostById_none {db : DB} {pid : Nat}
    (h : findPostById db pid = none) :
    ∀ p ∈ db.posts, p.id ≠ pid := by
  intro p hp
  have := List.find?_eq_none.mp h p hp
  simpa using this

theorem findPostById_some {db : DB} {pid : Nat} {p : Post}
    (h : findPostById db pid = some p) : p ∈ db.posts ∧ p.id = pid := by
  refine ⟨List.mem_of_find?_eq_some h, ?_⟩
  have := List.find?_some h
  simpa using this

/-! ### Store invariants -/

/-- Two user rows differ in id and, case-insensitively, in username and
email. -/
def UserDistinct (a b : User) : Prop :=
  a.id ≠ b.id ∧ strLower a.username ≠ strLower b.username ∧
    strLower a.email ≠ strLower b.email

/-- The uniqueness the table constraints of `models.py` actually enforce:
`id` is the primary key and `username` and `email` carry `unique=True`, all
compared exactly (case-sensitively). -/
def tableConstraintsOk (db : DB) : Prop :=
  db.users.Pairwise (fun a b => a.id ≠ b.id ∧ a.username ≠ b.username ∧ a.email ≠ b.email)

/-- No two user rows have usernames or emails equal up to case. -/
def ciUniqueUsers (db : DB) : Prop :=
  db.users.Pairwise (fun a b =>
    strLower a.username ≠ strLower b.username ∧ strLower a.email ≠ strLower b.email)

/-- Every stored email is already in lowercase form. -/
def emailsLowercase (db : DB) : Prop :=
  ∀ u ∈ db.users, strLower u.email = u.email

/-- The inductive invariant maintained by the handlers: pairwise-distinct
user rows, ids below the autoincrement counter, lowercase emails. -/
def StoreInv (db : DB) : Prop :=
  db.users.Pairwise UserDistinct ∧ (∀ u ∈ db.users, u.id < db.nextUserId) ∧
    emailsLowercase db

theorem userDistinct_symm : Symmetric UserDistinct := by
  rintro a b ⟨h1, h2, h3⟩
  exact ⟨h1.symm, h2.symm, h3.symm⟩

theorem ciUniqueUsers_of_inv {db : DB} (h : StoreInv db) : ciUniqueUsers db :=
  h.1.imp (fun hd => ⟨hd.2.1, hd.2.2⟩)

/-! ### Failure atomicity: every error is raised before any mutation -/

theorem create_user_error_frame (req : UserCreate) (db : DB)
    (h : (create_user req db).1.isError = true) : (create_user req db).2 = db := by
  unfold create_user at h ⊢
  cases hu : findUserByUsernameCI db req.username <;> simp only [hu] at h ⊢
  cases he : findUserByEmailCI db req.email <;> simp only [he] at h ⊢
  simp [HResp.isError] at h

theorem login_error_frame (s : Settings) (now : Nat) (nm pw : String) (db : DB)
    (h : (login_for_access_token s now nm pw db).1.isError = true) :
    (login_for_access_token s now nm pw db).2 = db := by
  unfold login_for_access_token at h ⊢
  cases hu : findUserByEmailCI db nm <;> simp only [hu] at h ⊢
  split at h <;> simp_all [HResp.isError]

theorem me_error_frame (s : Settings) (now : Nat) (tok : PresentedToken) (db : DB)
    (_h : (get_current_user s now tok db).1.isError = true) :
    (get_current_user s now tok db).2 = db := by
  unfold get_current_user
  cases hv : verify_access_token s.secret_key now tok <;> simp only [hv]
  case some uidStr =>
    cases hn : uidStr.toNat? <;> simp only [hn]
    case some uid =>
      cases hu : findUserById db uid <;> simp only [hu]

theorem get_user_error_frame (uid : Nat) (db : DB)
    (_h : (get_user uid db).1.isError = true) : (get_user uid db).2 = db := by
  unfold get_user
  cases hu : findUserById db uid <;> simp only [hu]

theorem update_user_error_frame (uid : Nat) (req : UserUpdate) (db : DB)
    (h : (update_user uid req db).1.isError = true) : (update_user uid req db).2 = db := by
  unfold update_user at h ⊢
  cases hu : findUserById db uid <;> simp only [hu] at h ⊢
  split at h <;> simp_all
  split at h <;> simp_all [HResp.isError]

theorem delete_user_error_frame (uid : Nat) (db : DB)
    (h : (delete_user uid db).1.isError = true) : (delete_user uid db).2 = db := by
  unfold delete_user at h ⊢
  cases hu : findUserById db uid <;> simp only [hu] at h ⊢
  simp [HResp.isError] at h

theorem create_post_error_frame (req : PostCreate) (now : Nat) (db : DB)
    (h : (create_post req now db).1.isError = true) : (create_post req now db).2 = db := by
  unfold create_post at h ⊢
  cases hu : findUserById db req.user_id <;> simp only [hu] at h ⊢
  simp [HResp.isError] at h

theorem get_post_error_frame (pid : Nat) (db : DB)
    (_h : (get_post pid db).1.isError = true) : (get_post pid db).2 = db := by
  unfold get_post
  cases hp : findPostById db pid <;> simp only [hp]

theorem put_post_error_frame (pid : Nat) (req : PostCreate) (db : DB)
    (h : ( update_post_full pid req db).1.isError = true) :
    ( update_post_full pid req db).2 = db := by
  unfold update_post_full at h ⊢
  cases hp : findPostById db pid <;> simp only [hp] at h ⊢
  split at h <;> simp_all [HResp.isError]

theorem patch_post_error_frame (pid : Nat) (req : PostUpdate) (db : DB)
    (h : ( update_post_partial pid req db).1.isError = true) :
    ( update_post_partial pid req db).2 = db := by
  unfold update_post_partial at h ⊢
  cases hp : findPostById db pid <;> simp only [hp] at h ⊢
  simp [HResp.isError] at h

theorem delete_post_error_frame (pid : Nat) (db : DB)
    (h : (delete_post pid db).1.isError = true) : (delete_post pid db).2 = db := by
  unfold delete_post at h ⊢
  cases hp : findPostById db pid <;> simp only [hp] at h ⊢
  simp [HResp.isError] at h

theorem toUnit_isError {α : Type} (r : HResp α) : r.toUnit.isError = r.isError := by
  cases r <;> rfl

/-- Claim C10: whenever a handler answers with an error status (404, 400 or
401), the store after the request equals the store before it — in every
handler the `raise` happens before any mutation of the session. -/
theorem errors_raised_before_any_mutation (s : Settings) (op : Op) (db : DB)
    (h : ((applyOp s op db).1).isError = true) : (applyOp s op db).2 = db := by
  cases op <;> simp only [applyOp, toUnit_isError] at h ⊢
  case createUserOp req => exact create_user_error_frame req db h
  case loginOp nm pw now => exact login_error_frame s now nm pw db h
  case meOp tok now => exact me_error_frame s now tok db h
  case getUserOp uid => exact get_user_error_frame uid db h
  case updateUserOp uid req => exact update_user_error_frame uid req db h
  case deleteUserOp uid => exact delete_user_error_frame uid db h
  case createPostOp req now => exact create_post_error_frame req now db h
  case getPostOp pid => exact get_post_error_frame pid db h
  case putPostOp pid req => exact put_post_error_frame pid req db h
  case patchPostOp pid req => exact patch_post_error_frame pid req db h
  case deletePostOp pid => exact delete_post_error_frame pid db h

/-! ### The handler-maintained invariant and its preservation -/

theorem pairwise_users_distinct {l : List User} (hpw : l.Pairwise UserDistinct)
    {a b : User} (ha : a ∈ l) (hb : b ∈ l) (hne : a.id ≠ b.id) : UserDistinct a b := by
  have hab : a ≠ b := fun e => hne (by rw [e])
  exact List.Pairwise.forall userDistinct_symm hpw ha hb hab

theorem pairwise_map_update {l : List User} {uid : Nat} {user' : User}
    (hpw : l.Pairwise UserDistinct)
    (hid : user'.id = uid)
    (hname : ∀ v ∈ l, v.id ≠ uid → strLower v.username ≠ strLower user'.username)
    (hemail : ∀ v ∈ l, v.id ≠ uid → strLower v.email ≠ strLower user'.email) :
    (l.map (fun u => if u.id == uid then user' else u)).Pairwise UserDistinct := by
  rw [List.pairwise_map]
  refine hpw.imp_of_mem ?_
  intro a b ha hb hab
  by_cases haid : a.id = uid <;> by_cases hbid : b.id = uid
  · exact absurd (haid.trans hbid.symm) hab.1
  · simp only [haid, beq_self_eq_true, if_pos, hbid, if_neg, beq_iff_eq]
    exact ⟨by rw [hid]; exact fun e => hbid e.symm,
      fun e => hname b hb hbid e.symm, fun e => hemail b hb hbid e.symm⟩
  · simp only [haid, hbid, beq_iff_eq, if_pos, if_neg]
    exact ⟨by rw [hid]; exact haid, hname a ha haid, hemail a ha haid⟩
  · simp only [haid, hbid, beq_iff_eq, if_neg]
    exact hab

theorem create_user_preserves_inv (req : UserCreate) (db : DB)
    (hInv : StoreInv db) : StoreInv (create_user req db).2 := by
  obtain ⟨hpw, hid, hlow⟩ := hInv
  unfold create_user
  cases hu : findUserByUsernameCI db req.username <;> simp only [hu]
  case some => exact ⟨hpw, hid, hlow⟩
  cases he : findUserByEmailCI db req.email <;> simp only [he]
  case some => exact ⟨hpw, hid, hlow⟩
  refine ⟨?_, ?_, ?_⟩
  · rw [List.pairwise_append]
    refine ⟨hpw, List.pairwise_singleton _ _, ?_⟩
    intro a ha b hb
    simp only [List.mem_singleton] at hb
    subst hb
    refine ⟨Nat.ne_of_lt (hid a ha), ?_, ?_⟩
    · exact findUserByUsernameCI_none hu a ha
    · show strLower a.email ≠ strLower (strLower req.email)
      rw [strLower_idem]
      exact findUserByEmailCI_none he a ha
  · intro u hu'
    rcases List.mem_append.mp hu' with h | h
    · exact Nat.lt_succ_of_lt (hid u h)
    · simp only [List.mem_singleton] at h
      subst h
      exact Nat.lt_succ_self _
  · intro u hu'
    rcases List.mem_append.mp hu' with h | h
    · exact hlow u h
    · simp only [List.mem_singleton] at h
      subst h
      exact strLower_idem req.email

theorem update_user_preserves_inv (uid : Nat) (req : UserUpdate) (db : DB)
    (hInv : StoreInv db) : StoreInv (update_user uid req db).2 := by
  obtain ⟨hpw, hid, hlow⟩ := hInv
  unfold update_user
  cases hu : findUserById db uid <;> simp only [hu]
  case none => exact ⟨hpw, hid, hlow⟩
  case some user =>
    obtain ⟨huser_mem, huser_id⟩ := findUserById_some hu
    split
    · exact ⟨hpw, hid, hlow⟩
    next hUClash =>
      split
      · exact ⟨hpw, hid, hlow⟩
      next hEClash =>
        rw [Bool.not_eq_true] at hUClash hEClash
        set user' : User :=
          { user with
            username := (req.username).getD user.username
            email := ((req.email).map strLower).getD user.email
            image_file :=
              match req.image_file with
              | some f => some f
              | none => user.image_file } with huser'
        have huid' : user'.id = uid := huser_id
        have hname : ∀ v ∈ db.users, v.id ≠ uid →
            strLower v.username ≠ strLower user'.username := by
          intro v hv hvid
          have hvd : UserDistinct v user :=
            pairwise_users_distinct hpw hv huser_mem (huser_id ▸ hvid)
          cases hreq : req.username with
          | none =>
            simp only [huser', hreq, Option.getD_none]
            exact hvd.2.1
          | some nm =>
            simp only [huser', hreq, Option.getD_some]
            simp only [hreq] at hUClash
            by_cases hc : strLower nm = strLower user.username
            · rw [hc]; exact hvd.2.1
            · rw [if_pos (by simpa using hc)] at hUClash
              have : findUserByUsernameCI db nm = none :=
                Option.not_isSome_iff_eq_none.mp (by simp [hUClash])
              exact findUserByUsernameCI_none this v hv
        have hemail : ∀ v ∈ db.users, v.id ≠ uid →
            strLower v.email ≠ strLower user'.email := by
          intro v hv hvid
          have hvd : UserDistinct v user :=
            pairwise_users_distinct hpw hv huser_mem (huser_id ▸ hvid)
          cases hreq : req.email with
          | none =>
            simp only [huser', hreq, Option.map_none', Option.getD_none]
            exact hvd.2.2
          | some em =>
            simp only [huser', hreq, Option.map_some', Option.getD_some]
            simp only [hreq] at hEClash
            rw [strLower_idem]
            by_cases hc : strLower em = strLower user.email
            · rw [hc]; exact hvd.2.2
            · rw [if_pos (by simpa using hc)] at hEClash
              have : findUserByEmailCI db em = none :=
                Option.not_isSome_iff_eq_none.mp (by simp [hEClash])
              exact findUserByEmailCI_none this v hv
        refine ⟨?_, ?_, ?_⟩
        · exact pairwise_map_update hpw huid' hname hemail
        · intro u hu'
          obtain ⟨v, hv, rfl⟩ := List.mem_map.mp hu'
          by_cases hvid : v.id = uid
          · simp only [hvid, beq_self_eq_true, if_pos]
            show user'.id < db.nextUserId
            rw [huid', ← huser_id]
            exact hid user huser_mem
          · simp only [hvid, beq_iff_eq, if_neg]
            exact hid v hv
        · intro u hu'
          obtain ⟨v, hv, rfl⟩ := List.mem_map.mp hu'
          by_cases hvid : v.id = uid
          · simp only [hvid, beq_self_eq_true, if_pos]
            show strLower user'.email = user'.email
            cases hreq : req.email with
            | none =>
              simp only [huser', hreq, Option.map_none', Option.getD_none]
              exact hlow user huser_mem
            | some em =>
              simp only [huser', hreq, Option.map_some', Option.getD_some]
              exact strLower_idem em
          · simp only [hvid, beq_iff_eq, if_neg]
            exact hlow v hv

theorem delete_user_preserves_inv (uid : Nat) (db : DB)
    (hInv : StoreInv db) : StoreInv (delete_user uid db).2 := by
  obtain ⟨hpw, hid, hlow⟩ := hInv
  unfold delete_user
  cases hu : findUserById db uid <;> simp only [hu]
  case none => exact ⟨hpw, hid, hlow⟩
  case some u =>
    refine ⟨List.Pairwise.sublist (List.filter_sublist _) hpw, ?_, ?_⟩
    · intro v hv
      exact hid v (List.mem_of_mem_filter hv)
    · intro v hv
      exact hlow v (List.mem_of_mem_filter hv)

theorem storeInv_of_same_users {db db' : DB} (h1 : db'.users = db.users)
    (h2 : db'.nextUserId = db.nextUserId) (hInv : StoreInv db) : StoreInv db' := by
  simp only [StoreInv, emailsLowercase, h1, h2]
  exact hInv

theorem login_frame (s : Settings) (now : Nat) (nm pw : String) (db : DB) :
    (login_for_access_token s now nm pw db).2 = db := by
  unfold login_for_access_token
  cases hu : findUserByEmailCI db nm <;> simp only [hu]
  split <;> rfl

theorem me_frame (s : Settings) (now : Nat) (tok : PresentedToken) (db : DB) :
    (get_current_user s now tok db).2 = db := by
  unfold get_current_user
  cases hv : verify_access_token s.secret_key now tok <;> simp only [hv]
  case some uidStr =>
    cases hn : uidStr.toNat? <;> simp only [hn]
    case some uid =>
      cases hu : findUserById db uid <;> simp only [hu]

theorem get_user_frame (uid : Nat) (db : DB) : (get_user uid db).2 = db := by
  unfold get_user
  cases hu : findUserById db uid <;> simp only [hu]

theorem get_post_frame (pid : Nat) (db : DB) : (get_post pid db).2 = db := by
  unfold get_post
  cases hp : findPostById db pid <;> simp only [hp]

theorem create_post_users_frame (req : PostCreate) (now : Nat) (db : DB) :
    (create_post req now db).2.users = db.users ∧
      (create_post req now db).2.nextUserId = db.nextUserId := by
  unfold create_post
  cases hu : findUserById db req.user_id <;> simp [hu]

theorem put_post_users_frame (pid : Nat) (req : PostCreate) (db : DB) :
    ( update_post_full pid req db).2.users = db.users ∧
      ( update_post_full pid req db).2.nextUserId = db.nextUserId := by
  unfold update_post_full
  cases hp : findPostById db pid <;> simp only [hp]
  · simp
  · split <;> exact ⟨rfl, rfl⟩

theorem patch_post_users_frame (pid : Nat) (req : PostUpdate) (db : DB) :
    ( update_post_partial pid req db).2.users = db.users ∧
      ( update_post_partial pid req db).2.nextUserId = db.nextUserId := by
  unfold update_post_partial
  cases hp : findPostById db pid <;> simp only [hp]
  · simp
  · simp

theorem delete_post_users_frame (pid : Nat) (db : DB) :
    (delete_post pid db).2.users = db.users ∧
      (delete_post pid db).2.nextUserId = db.nextUserId := by
  unfold delete_post
  cases hp : findPostById db pid <;> simp only [hp]
  · simp
  · simp

theorem applyOp_preserves_inv (s : Settings) (op : Op) (db : DB)
    (hInv : StoreInv db) : StoreInv (applyOp s op db).2 := by
  cases op <;> simp only [applyOp]
  case createUserOp req => exact create_user_preserves_inv req db hInv
  case loginOp nm pw now => rw [login_frame]; exact hInv
  case meOp tok now => rw [me_frame]; exact hInv
  case getUserOp uid => rw [get_user_frame]; exact hInv
  case updateUserOp uid req => exact update_user_preserves_inv uid req db hInv
  case deleteUserOp uid => exact delete_user_preserves_inv uid db hInv
  case createPostOp req now =>
    exact storeInv_of_same_users (create_post_users_frame req now db).1
      (create_post_users_frame req now db).2 hInv
  case getPostOp pid => rw [get_post_frame]; exact hInv
  case putPostOp pid req =>
    exact storeInv_of_same_users (put_post_users_frame pid req db).1
      (put_post_users_frame pid req db).2 hInv
  case patchPostOp pid req =>
    exact storeInv_of_same_users (patch_post_users_frame pid req db).1
      (patch_post_users_frame pid req db).2 hInv
  case deletePostOp pid =>
    exact storeInv_of_same_users (delete_post_users_frame pid db).1
      (delete_post_users_frame pid db).2 hInv

theorem reachable_inv {s : Settings} {db : DB} (h : Reachable s db) : StoreInv db := by
  induction h with
  | empty =>
    refine ⟨List.Pairwise.nil, ?_, ?_⟩
    · intro u hu
      simp [emptyDB] at hu
    · intro u hu
      simp [emptyDB] at hu
  | step op hdb ih => exact applyOp_preserves_inv s op _ ih

/-! ### Helper facts for the claims about posts and emails -/

theorem create_user_posts_frame (req : UserCreate) (db : DB) :
    (create_user req db).2.posts = db.posts := by
  unfold create_user
  cases hu : findUserByUsernameCI db req.username <;> simp only [hu]
  cases he : findUserByEmailCI db req.email <;> simp only [he]

theorem update_user_posts_frame (uid : Nat) (req : UserUpdate) (db : DB) :
    (update_user uid req db).2.posts = db.posts := by
  unfold update_user
  cases hu : findUserById db uid <;> simp only [hu]
  case some user =>
    split
    · rfl
    · split <;> rfl

theorem date_posted_immutable_step (s : Settings) (op : Op) (db : DB)
    (p : Post) (hp : p ∈ (applyOp s op db).2.posts) :
    (p.id, p.date_posted) ∈ postStamps db ∨
      ∃ req now, op = .createPostOp req now ∧ p.date_posted = now := by
  have stamp_mem : ∀ q ∈ db.posts, (q.id, q.date_posted) ∈ postStamps db :=
    fun q hq => List.mem_map.mpr ⟨q, hq, rfl⟩
  cases op <;> simp only [applyOp] at hp
  case createUserOp req =>
    rw [create_user_posts_frame] at hp
    exact Or.inl (stamp_mem p hp)
  case loginOp nm pw now =>
    rw [login_frame] at hp
    exact Or.inl (stamp_mem p hp)
  case meOp tok now =>
    rw [me_frame] at hp
    exact Or.inl (stamp_mem p hp)
  case getUserOp uid =>
    rw [get_user_frame] at hp
    exact Or.inl (stamp_mem p hp)
  case updateUserOp uid req =>
    rw [update_user_posts_frame] at hp
    exact Or.inl (stamp_mem p hp)
  case deleteUserOp uid =>
    unfold delete_user at hp
    cases hu : findUserById db uid <;> simp only [hu] at hp
    · exact Or.inl (stamp_mem p hp)
    · exact Or.inl (stamp_mem p (List.mem_of_mem_filter hp))
  case createPostOp req now =>
    unfold create_post at hp
    cases hu : findUserById db req.user_id <;> simp only [hu] at hp
    · exact Or.inl (stamp_mem p hp)
    · rcases List.mem_append.mp hp with h | h
      · exact Or.inl (stamp_mem p h)
      · simp only [List.mem_singleton] at h
        subst h
        exact Or.inr ⟨req, now, rfl, rfl⟩
  case getPostOp pid =>
    rw [get_post_frame] at hp
    exact Or.inl (stamp_mem p hp)
  case putPostOp pid req =>
    unfold update_post_full at hp
    cases hp0 : findPostById db pid <;> simp only [hp0] at hp
    · exact Or.inl (stamp_mem p hp)
    case some post =>
      obtain ⟨hpost_mem, hpost_id⟩ := findPostById_some hp0
      split at hp
      · exact Or.inl (stamp_mem p hp)
      · obtain ⟨q, hq, rfl⟩ := List.mem_map.mp hp
        by_cases hqid : q.id = pid
        · simp only [hqid, beq_self_eq_true, if_pos]
          exact Or.inl (List.mem_map.mpr ⟨post, hpost_mem, rfl⟩)
        · simp only [hqid, beq_iff_eq, if_neg]
          exact Or.inl (stamp_mem q hq)
  case patchPostOp pid req =>
    unfold update_post_partial at hp
    cases hp0 : findPostById db pid <;> simp only [hp0] at hp
    · exact Or.inl (stamp_mem p hp)
    case some post =>
      obtain ⟨hpost_mem, hpost_id⟩ := findPostById_some hp0
      obtain ⟨q, hq, rfl⟩ := List.mem_map.mp hp
      by_cases hqid : q.id = pid
      · simp only [hqid, beq_self_eq_true, if_pos]
        exact Or.inl (List.mem_map.mpr ⟨post, hpost_mem, rfl⟩)
      · simp only [hqid, beq_iff_eq, if_neg]
        exact Or.inl (stamp_mem q hq)
  case deletePostOp pid =>
    unfold delete_post at hp
    cases hp0 : findPostById db pid <;> simp only [hp0] at hp
    · exact Or.inl (stamp_mem p hp)
    · exact Or.inl (stamp_mem p (List.mem_of_mem_filter hp))

theorem create_post_sets_now (req : PostCreate) (now : Nat) (db : DB)
    (st : Nat) (p : Post) (hok : (create_post req now db).1 = .ok st p) :
    p.date_posted = now ∧ (create_post req now db).2.posts = db.posts ++ [p] := by
  unfold create_post at hok ⊢
  cases hu : findUserById db req.user_id <;> simp only [hu] at hok ⊢
  · exact absurd hok (by simp)
  · injection hok with h1 h2
    subst h1
    subst h2
    exact ⟨rfl, rfl⟩

theorem create_user_ok_shape (req : UserCreate) (db : DB)
    (st : Nat) (u : User) (hok : (create_user req db).1 = .ok st u) :
    u.email = strLower req.email ∧ u.username = req.username := by
  unfold create_user at hok
  cases hu : findUserByUsernameCI db req.username <;> simp only [hu] at hok
  · cases he : findUserByEmailCI db req.email <;> simp only [he] at hok
    · injection hok with h1 h2
      subst h2
      exact ⟨rfl, rfl⟩
    · exact absurd hok (by simp)
  · exact absurd hok (by simp)

theorem update_user_ok_shape (uid : Nat) (req : UserUpdate) (db : DB)
    (st : Nat) (u : User) (hok : (update_user uid req db).1 = .ok st u) :
    (∀ em, req.email = some em → u.email = strLower em) ∧
      (∀ nm, req.username = some nm → u.username = nm) := by
  unfold update_user at hok
  cases hu : findUserById db uid <;> simp only [hu] at hok
  · exact absurd hok (by simp)
  case some user =>
    split at hok
    · exact absurd hok (by simp)
    · split at hok
      · exact absurd hok (by simp)
      · injection hok with h1 h2
        subst h2
        constructor
        · intro em hem
          simp [hem]
        · intro nm hnm
          simp [hnm]

theorem create_user_preserves_emailsLower (req : UserCreate) (db : DB)
    (hlow : emailsLowercase db) : emailsLowercase (create_user req db).2 := by
  unfold create_user
  cases hu : findUserByUsernameCI db req.username <;> simp only [hu]
  case some => exact hlow
  cases he : findUserByEmailCI db req.email <;> simp only [he]
  case some => exact hlow
  intro u hu'
  rcases List.mem_append.mp hu' with h | h
  · exact hlow u h
  · simp only [List.mem_singleton] at h
    subst h
    exact strLower_idem req.email

theorem update_user_preserves_emailsLower (uid : Nat) (req : UserUpdate) (db : DB)
    (hlow : emailsLowercase db) : emailsLowercase (update_user uid req db).2 := by
  unfold update_user
  cases hu : findUserById db uid <;> simp only [hu]
  case none => exact hlow
  case some user =>
    obtain ⟨hmem, hid⟩ := findUserById_some hu
    split
    · exact hlow
    · split
      · exact hlow
      · intro u hu'
        obtain ⟨v, hv, rfl⟩ := List.mem_map.mp hu'
        by_cases hvid : v.id = uid
        · simp only [hvid, beq_self_eq_true, if_pos]
          cases hreq : req.email with
          | none =>
            simp only [hreq, Option.map_none', Option.getD_none]
            exact hlow user hmem
          | some em =>
            simp only [hreq, Option.map_some', Option.getD_some]
            exact strLower_idem em
        · simp only [hvid, beq_iff_eq, if_neg]
          exact hlow v hv

theorem delete_user_preserves_emailsLower (uid : Nat) (db : DB)
    (hlow : emailsLowercase db) : emailsLowercase (delete_user uid db).2 := by
  unfold delete_user
  cases hu : findUserById db uid <;> simp only [hu]
  case none => exact hlow
  case some u =>
    intro v hv
    exact hlow v (List.mem_of_mem_filter hv)

theorem applyOp_preserves_emailsLower (s : Settings) (op : Op) (db : DB)
    (hlow : emailsLowercase db) : emailsLowercase (applyOp s op db).2 := by
  cases op <;> simp only [applyOp]
  case createUserOp req => exact create_user_preserves_emailsLower req db hlow
  case loginOp nm pw now => rw [login_frame]; exact hlow
  case meOp tok now => rw [me_frame]; exact hlow
  case getUserOp uid => rw [get_user_frame]; exact hlow
  case updateUserOp uid req => exact update_user_preserves_emailsLower uid req db hlow
  case deleteUserOp uid => exact delete_user_preserves_emailsLower uid db hlow
  case createPostOp req now =>
    intro u hu
    rw [(create_post_users_frame req now db).1] at hu
    exact hlow u hu
  case getPostOp pid => rw [get_post_frame]; exact hlow
  case putPostOp pid req =>
    intro u hu
    rw [(put_post_users_frame pid req db).1] at hu
    exact hlow u hu
  case patchPostOp pid req =>
    intro u hu
    rw [(patch_post_users_frame pid req db).1] at hu
    exact hlow u hu
  case deletePostOp pid =>
    intro u hu
    rw [(delete_post_users_frame pid db).1] at hu
    exact hlow u hu

/-! ### The claims -/

/-- Claim C1: a token issued for subject S by `create_access_token` (data
sub = S, configured ttl) and verified by `verify_access_token` at any
instant strictly before its expiry returns S. -/
theorem token_issued_before_expiry_returns_subject (secret S : String)
    (now ttl t : Nat) (h : t < now + ttl) :
    verify_access_token secret t
      (.wellFormed (create_access_token secret now S ttl)) = some S := by
  unfold verify_access_token create_access_token
  simp [h]

/-- Concrete run of C1: a token for subject "1" with ttl 1800 issued at 0 and
verified at 1799 returns "1". -/
theorem token_issued_before_expiry_returns_subject_witness :
    1799 < 0 + 1800 ∧
      verify_access_token "secret" 1799
        (.wellFormed (create_access_token "secret" 0 "1" 1800)) = some "1" :=
  ⟨by decide, token_issued_before_expiry_returns_subject "secret" "1" 0 1800 1799 (by decide)⟩

/-- Claim C2: every failure mode of `verify_access_token` — malformed
structure, bad signature, expiry at or before the verification instant —
yields the single failure value `none`, and `get_current_user` surfaces any
`none` as the same 401 error with the store unchanged (no retry, no
recovery). -/
theorem verify_failures_uniform_and_caller_401 (s : Settings) (now : Nat) :
    (∀ raw, verify_access_token s.secret_key now (.malformed raw) = none) ∧
    (∀ tk : SignedToken, tk.sig ≠ hmacTag s.secret_key tk.payload.sub tk.payload.exp →
      verify_access_token s.secret_key now (.wellFormed tk) = none) ∧
    (∀ tk : SignedToken, tk.payload.exp ≤ now →
      verify_access_token s.secret_key now (.wellFormed tk) = none) ∧
    (∀ tok db, verify_access_token s.secret_key now tok = none →
      get_current_user s now tok db = (.error 401 "Invalid or expired token", db)) := by
  refine ⟨fun raw => rfl, ?_, ?_, ?_⟩
  · intro tk hsig
    simp only [verify_access_token]
    rw [if_neg hsig]
  · intro tk hexp
    simp only [verify_access_token]
    by_cases hsig : tk.sig = hmacTag s.secret_key tk.payload.sub tk.payload.exp
    · rw [if_pos hsig, if_neg (by omega)]
    · rw [if_neg hsig]
  · intro tok db hv
    unfold get_current_user
    simp only [hv]

/-- Concrete runs of C2: a malformed token, a zero-signature token, and a
token verified exactly at its expiry all verify to `none`, and
`get_current_user` answers 401 with the store unchanged. -/
theorem verify_failures_uniform_and_caller_401_witness :
    verify_access_token "k" 0 (.malformed "zzz") = none ∧
    verify_access_token "k" 0
        (.wellFormed { payload := { sub := "1", exp := 100 }, sig := 0 }) = none ∧
    verify_access_token "k" 100 (.wellFormed (create_access_token "k" 0 "1" 100)) = none ∧
    get_current_user s0 0 (.malformed "zzz") emptyDB =
      (.error 401 "Invalid or expired token", emptyDB) :=
  ⟨(verify_failures_uniform_and_caller_401 s0 0).1 "zzz",
   (verify_failures_uniform_and_caller_401 s0 0).2.1
     { payload := { sub := "1", exp := 100 }, sig := 0 } (by decide),
   (verify_failures_uniform_and_caller_401 s0 100).2.2.1
     (create_access_token "k" 0 "1" 100) (by decide),
   (verify_failures_uniform_and_caller_401 s0 0).2.2.2 (.malformed "zzz") emptyDB rfl⟩

/-- Claim C3: changing the signature of an issued token to any other value
makes `verify_access_token` reject it at every instant, whatever expiry the
tampered token still claims. -/
theorem tampered_signature_rejected (secret S : String) (now ttl t sig' : Nat)
    (h : sig' ≠ (create_access_token secret now S ttl).sig) :
    verify_access_token secret t
      (.wellFormed
        { payload := (create_access_token secret now S ttl).payload, sig := sig' }) =
      none := by
  unfold create_access_token at h ⊢
  simp only [verify_access_token]
  simp only at h ⊢
  rw [if_neg h]

/-- Concrete run of C3: incrementing the signature of a token whose claimed
expiry is far in the future makes verification fail. -/
theorem tampered_signature_rejected_witness :
    (create_access_token "k" 0 "1" 999999999).sig + 1 ≠
        (create_access_token "k" 0 "1" 999999999).sig ∧
      verify_access_token "k" 5
        (.wellFormed
          { payload := (create_access_token "k" 0 "1" 999999999).payload,
            sig := (create_access_token "k" 0 "1" 999999999).sig + 1 }) = none :=
  ⟨by decide, tampered_signature_rejected "k" "1" 0 999999999 5 _ (by decide)⟩

/-- Claim C4 (code bug): `routers/users.py` writes `password_hash` when
constructing a user and reads `user.password_hash` during login, and the spec
lists a password hash among the User fields, but `models.User` declares no
such column — the model as written cannot support the login contract. -/
theorem models_user_missing_password_hash_column :
    "password_hash" ∉ modelsUserColumns ∧
      "username" ∈ modelsUserColumns ∧ "email" ∈ modelsUserColumns := by
  decide

/-- Claim C5 is false as stated: the table constraints of `models.py`
(exact-match unique username/email) do not enforce case-insensitive
uniqueness; `clashDB` satisfies them while holding two users whose usernames
and emails coincide up to case. -/
theorem table_constraints_do_not_enforce_ci_uniqueness :
    ¬ (∀ db : DB, tableConstraintsOk db → ciUniqueUsers db) := by
  intro hclaim
  exact absurd
    (hclaim clashDB (by unfold tableConstraintsOk clashDB clashUserA clashUserB; decide))
    (by unfold ciUniqueUsers clashDB clashUserA clashUserB; decide)

/-- Claim C5 (amended): case-insensitive uniqueness of username and email
holds in every store state reachable through the handlers, enforced by the
create/update pre-checks; the storage-layer constraints alone enforce only
exact-case uniqueness. -/
theorem handler_reachable_states_ci_unique (s : Settings) (db : DB)
    (h : Reachable s db) : ciUniqueUsers db :=
  ciUniqueUsers_of_inv (reachable_inv h)

/-- Concrete run of the amended C5: the state after one create-user request
on a fresh store is case-insensitively duplicate-free. -/
theorem handler_reachable_states_ci_unique_witness :
    ciUniqueUsers (applyOp s0 (.createUserOp ⟨"Alice", "A@x.com", "password1"⟩) emptyDB).2 :=
  handler_reachable_states_ci_unique s0 _ (Reachable.step _ Reachable.empty)

/-- Claim C6: `create_user` rejects, with status 400 and an unchanged store,
every request whose username or email equals an existing user's
case-insensitively. -/
theorem create_user_rejects_duplicate_with_400 (req : UserCreate) (db : DB)
    (h : ∃ u ∈ db.users, strLower u.username = strLower req.username ∨
      strLower u.email = strLower req.email) :
    ∃ d : String, (create_user req db).1 = .error 400 d ∧ (create_user req db).2 = db := by
  unfold create_user
  cases hu : findUserByUsernameCI db req.username <;> simp only [hu]
  case some => exact ⟨"Username already exists", by simp⟩
  cases he : findUserByEmailCI db req.email <;> simp only [he]
  case some => exact ⟨"Email already exists", by simp⟩
  exfalso
  obtain ⟨u, hmem, hcase⟩ := h
  cases hcase with
  | inl h1 => exact findUserByUsernameCI_none hu u hmem h1
  | inr h2 => exact findUserByEmailCI_none he u hmem h2

/-- Concrete run of C6: creating "ALICE" in a store already holding "Alice"
answers 400 and leaves the store unchanged. -/
theorem create_user_rejects_duplicate_with_400_witness :
    (∃ u ∈ dupDB.users,
      strLower u.username = strLower "ALICE" ∨ strLower u.email = strLower "new@x.com") ∧
    ∃ d : String,
      (create_user ⟨"ALICE", "new@x.com", "password1"⟩ dupDB).1 = .error 400 d ∧
      (create_user ⟨"ALICE", "new@x.com", "password1"⟩ dupDB).2 = dupDB :=
  ⟨by decide, create_user_rejects_duplicate_with_400 ⟨"ALICE", "new@x.com", "password1"⟩ dupDB (by decide)⟩

/-- Claim C7: for an existing user id, `delete_user` removes the user row and
every post whose `user_id` is that id (status 204), leaving no post
referencing it; for a missing id it answers 404 and leaves the store
unchanged. -/
theorem delete_user_cascades_posts (db : DB) (uid : Nat) :
    ((∃ u, findUserById db uid = some u) →
      delete_user uid db =
        (.ok 204 (),
          { db with
            users := db.users.filter (fun u => u.id != uid)
            posts := db.posts.filter (fun p => p.user_id != uid) }) ∧
      (∀ u ∈ (delete_user uid db).2.users, u.id ≠ uid) ∧
      (∀ p ∈ (delete_user uid db).2.posts, p.user_id ≠ uid)) ∧
    (findUserById db uid = none →
      delete_user uid db = (.error 404 "User not found", db)) := by
  constructor
  · rintro ⟨u, hu⟩
    unfold delete_user
    simp only [hu]
    refine ⟨by trivial, ?_, ?_⟩
    · intro v hv
      have := (List.mem_filter.mp hv).2
      simpa using this
    · intro p hp
      have := (List.mem_filter.mp hp).2
      simpa using this
  · intro hu
    unfold delete_user
    simp only [hu]

/-- Concrete runs of C7: deleting user 1 removes it and both of its posts;
deleting the absent id 99 answers 404 with the store unchanged. -/
theorem delete_user_cascades_posts_witness :
    ((∃ u, findUserById cascadeDB 1 = some u) ∧
      delete_user 1 cascadeDB =
        (.ok 204 (),
          { cascadeDB with
            users := cascadeDB.users.filter (fun u => u.id != 1)
            posts := cascadeDB.posts.filter (fun p => p.user_id != 1) }) ∧
      (∀ p ∈ (delete_user 1 cascadeDB).2.posts, p.user_id ≠ 1)) ∧
    (findUserById cascadeDB 99 = none ∧
      delete_user 99 cascadeDB = (.error 404 "User not found", cascadeDB)) :=
  ⟨⟨⟨_, rfl⟩, ((delete_user_cascades_posts cascadeDB 1).1 ⟨_, rfl⟩).1,
      ((delete_user_cascades_posts cascadeDB 1).1 ⟨_, rfl⟩).2.2⟩,
   ⟨rfl, (delete_user_cascades_posts cascadeDB 99).2 rfl⟩⟩

/-- Claim C8: `date_posted` is assigned exactly once, at creation, to the
current UTC instant; after any request, every stored post either keeps an
(id, date_posted) stamp the store already had or is the post just created,
stamped with that request's instant — no update ever changes it. -/
theorem post_date_posted_set_once_never_changed :
    (∀ req now db st p, (create_post req now db).1 = .ok st p →
      p.date_posted = now ∧ (create_post req now db).2.posts = db.posts ++ [p]) ∧
    (∀ s op db p, p ∈ (applyOp s op db).2.posts →
      (p.id, p.date_posted) ∈ postStamps db ∨
      ∃ req now, op = .createPostOp req now ∧ p.date_posted = now) :=
  ⟨create_post_sets_now, date_posted_immutable_step⟩

/-- Concrete runs of C8: a post created at instant 42 carries stamp 42, and
after a PATCH changing its title the surviving post still carries a stamp the
store already had. -/
theorem post_date_posted_set_once_never_changed_witness :
    ((create_post ⟨"t", "c", 1⟩ 42 dupDB).1 = .ok 201 cpPost ∧
      cpPost.date_posted = 42 ∧
      (create_post ⟨"t", "c", 1⟩ 42 dupDB).2.posts = dupDB.posts ++ [cpPost]) ∧
    (patchedPost ∈ (applyOp s0 (.patchPostOp 1 ⟨some "x", none⟩) db1).2.posts ∧
      ((patchedPost.id, patchedPost.date_posted) ∈ postStamps db1 ∨
        ∃ req now, Op.patchPostOp 1 ⟨some "x", none⟩ = .createPostOp req now ∧
          patchedPost.date_posted = now)) :=
  ⟨⟨by decide, post_date_posted_set_once_never_changed.1 ⟨"t", "c", 1⟩ 42 dupDB 201 cpPost (by decide)⟩,
   ⟨by decide, post_date_posted_set_once_never_changed.2 s0 (.patchPostOp 1 ⟨some "x", none⟩) db1
      patchedPost (by decide)⟩⟩

/-- Claim C9: `create_user` and `update_user` lowercase the email before
storing it while storing the submitted username verbatim, and every handler
preserves the all-stored-emails-lowercase invariant. -/
theorem stored_emails_lowercase :
    (∀ req db st u, (create_user req db).1 = .ok st u →
      u.email = strLower req.email ∧ u.username = req.username) ∧
    (∀ uid req db st u, (update_user uid req db).1 = .ok st u →
      (∀ em, req.email = some em → u.email = strLower em) ∧
      (∀ nm, req.username = some nm → u.username = nm)) ∧
    (∀ s op db, emailsLowercase db → emailsLowercase (applyOp s op db).2) :=
  ⟨create_user_ok_shape, update_user_ok_shape, applyOp_preserves_emailsLower⟩

/-- Concrete runs of C9: creating Bob with email BOB@X.com stores
bob@x.com and the username verbatim; a PATCH to NEW@X.com stores
new@x.com; the lowercase invariant survives a further request. -/
theorem stored_emails_lowercase_witness :
    ((create_user ⟨"Bob", "BOB@X.com", "password1"⟩ emptyDB).1 = .ok 201 newBob ∧
      newBob.email = strLower "BOB@X.com" ∧ newBob.username = "Bob") ∧
    ((update_user 1 ⟨none, some "NEW@X.com", none⟩ db2).1 = .ok 200 updBob ∧
      updBob.email = strLower "NEW@X.com") ∧
    (emailsLowercase db2 ∧
      emailsLowercase (applyOp s0 (.patchPostOp 1 ⟨some "x", none⟩) db2).2) := by
  refine ⟨⟨by decide, ?_⟩, ⟨by decide, ?_⟩, ⟨?_, ?_⟩⟩
  · exact stored_emails_lowercase.1 ⟨"Bob", "BOB@X.com", "password1"⟩ emptyDB 201 newBob (by decide)
  · exact (stored_emails_lowercase.2.1 1 ⟨none, some "NEW@X.com", none⟩ db2 200 updBob
      (by decide)).1 "NEW@X.com" rfl
  · unfold emailsLowercase
    decide
  · exact stored_emails_lowercase.2.2 s0 (.patchPostOp 1 ⟨some "x", none⟩) db2
      (by unfold emailsLowercase; decide)

/-- Concrete run of C10: deleting a user from the empty store answers an
error and the store is exactly the empty store afterwards. -/
theorem errors_raised_before_any_mutation_witness :
    (applyOp s0 (.deleteUserOp 1) emptyDB).1.isError = true ∧
      (applyOp s0 (.deleteUserOp 1) emptyDB).2 = emptyDB :=
  ⟨rfl, errors_raised_before_any_mutation s0 (.deleteUserOp 1) emptyDB rfl⟩
